import Mathlib

/-!
# FramebufferNativeWindow: the two-buffer framebuffer window

A shallow embedding of `src/FramebufferNativeWindow.cpp`: the constructor and
destructor, `dequeueBuffer`, `lockBuffer`, `queueBuffer` and `query`, followed by
the properties of the buffer hand-off protocol.

Conventions of the embedding.

* Pointers are addresses (`Ptr`), `NULL` is address 0. The `NativeBuffer` objects
  live in the `objects` map of the window record, so that pointer comparison
  (`self->front == buffer`) is comparison of addresses.
* The counters `mNumBuffers`, `mNumFreeBuffers` and `mBufferHead` are 32-bit
  signed machine integers. They are integers (`Int`) here, and `++` and `--` are
  `int32_inc` and `int32_dec`, which wrap around at the ends of the 32-bit range
  as the machine does. Under the disciplines `whileOutstanding`, `heldOnly` and
  `oneAtATime` below the counters stay between 0 and 2.
* Every operation runs with `self->mutex` held, so an operation is one atomic
  transition. `Condition::wait` gives the mutex up and returns with the mutex
  held again on whatever state the other threads left; the blocking operations
  therefore take the list of states found at the successive returns of `wait`.
* Constants and declarations of headers that are not part of the sources
  (`NO_ERROR`, `BAD_VALUE`, `NATIVE_WINDOW_*`, `GRALLOC_USAGE_HW_FB`) are
  parameters, collected in `Codes`.
-/

namespace android

/-- An address; pointers of every type are modelled by their address. -/
abbrev Ptr := Nat

/-- The null pointer. -/
def NULL : Ptr := 0

/-- A gralloc buffer handle (`buffer_handle_t`), an address as well. -/
abbrev buffer_handle_t := Nat

/-- The largest value of a 32-bit signed counter. -/
def INT32_MAX : Int := 2147483647

/-- The smallest value of a 32-bit signed counter. -/
def INT32_MIN : Int := -2147483648

/-- The value of a 32-bit signed counter after `x++`: the next integer, and from
`INT32_MAX` around to `INT32_MIN`. -/
def int32_inc (x : Int) : Int :=
  if x = INT32_MAX then INT32_MIN else x + 1

/-- The value of a 32-bit signed counter after `x--`: the previous integer, and
from `INT32_MIN` around to `INT32_MAX`. -/
def int32_dec (x : Int) : Int :=
  if x = INT32_MIN then INT32_MAX else x - 1

/-- The constants the source takes from headers outside the sources. -/
structure Codes where
  NO_ERROR : Int
  BAD_VALUE : Int
  NATIVE_WINDOW_WIDTH : Int
  NATIVE_WINDOW_HEIGHT : Int
  NATIVE_WINDOW_FORMAT : Int
  GRALLOC_USAGE_HW_FB : Int

/-- The values these constants have on Android (`utils/Errors.h`,
`ui/egl/android_natives.h`, `hardware/gralloc.h`); used for concrete runs only. -/
def androidCodes : Codes :=
  { NO_ERROR := 0
    BAD_VALUE := -22
    NATIVE_WINDOW_WIDTH := 0
    NATIVE_WINDOW_HEIGHT := 1
    NATIVE_WINDOW_FORMAT := 2
    GRALLOC_USAGE_HW_FB := 4096 }

/-- The case labels of the `switch` in `query` are pairwise different (C++ does
not compile a `switch` with a repeated label). -/
def Codes.distinctLabels (k : Codes) : Prop :=
  k.NATIVE_WINDOW_WIDTH ≠ k.NATIVE_WINDOW_HEIGHT ∧
  k.NATIVE_WINDOW_WIDTH ≠ k.NATIVE_WINDOW_FORMAT ∧
  k.NATIVE_WINDOW_HEIGHT ≠ k.NATIVE_WINDOW_FORMAT

instance (k : Codes) : Decidable k.distinctLabels := by
  unfold Codes.distinctLabels; infer_instance

/-- The fields of `framebuffer_device_t` the source reads; `setUpdateRect` tells
whether that function pointer is set. -/
structure framebuffer_device_t where
  width : Int
  height : Int
  format : Int
  setUpdateRect : Bool

/-- A `NativeBuffer` object (the fields of `android_native_buffer_t` in use). -/
structure NativeBuffer where
  width : Int
  height : Int
  format : Int
  usage : Int
  handle : buffer_handle_t
  stride : Int

/-- The object state of a `FramebufferNativeWindow`.  `buffers` is the array
`sp<NativeBuffer> buffers[2]` seen as storage indexed by an `int` (indexes 0 and 1
are the array), `front` the `front` pointer, `objects` the `NativeBuffer` objects
by address. -/
structure FramebufferNativeWindow where
  fbDev : Option framebuffer_device_t
  grDev : Ptr
  mUpdateOnDemand : Bool
  mNumBuffers : Int
  mNumFreeBuffers : Int
  mBufferHead : Int
  buffers : Int → Ptr
  front : Ptr
  objects : Ptr → Option NativeBuffer

/-- What `new NativeBuffer(...)` yields: the address of the object and the content
of the two fields the constructor of `NativeBuffer` leaves unset. -/
structure NewResult where
  addr : Ptr
  handle : buffer_handle_t
  stride : Int

/-- What one call of `grDev->alloc` does: the status it returns and the values it
stores through `&buffers[i]->handle` and `&buffers[i]->stride` (`none`: it stores
nothing there). -/
structure AllocResult where
  err : Int
  handle : Option buffer_handle_t
  stride : Option Int

/-- The behaviour of the hardware layer during construction. -/
structure Hal where
  hw_get_module : Int
  framebuffer_open : Option framebuffer_device_t
  gralloc_open : Ptr
  new0 : NewResult
  new1 : NewResult
  alloc0 : AllocResult
  alloc1 : AllocResult

/-- Assignment to one slot of the `buffers` array. -/
def setSlot (buffers : Int → Ptr) (i : Int) (p : Ptr) : Int → Ptr :=
  fun j => if j = i then p else buffers j

/-- Creation or replacement of the object at an address. -/
def setObject (objects : Ptr → Option NativeBuffer) (p : Ptr) (nb : NativeBuffer) :
    Ptr → Option NativeBuffer :=
  fun q => if q = p then some nb else objects q

/-- The writes of `grDev->alloc` through the out-pointers into the object at `p`. -/
def allocInto (objects : Ptr → Option NativeBuffer) (p : Ptr) (a : AllocResult) :
    Ptr → Option NativeBuffer :=
  match objects p with
  | none => objects
  | some nb =>
      setObject objects p
        { nb with handle := a.handle.getD nb.handle, stride := a.stride.getD nb.stride }

/-- The constructor `FramebufferNativeWindow::FramebufferNativeWindow()`.  `mem` is
the storage of the object before construction (its content is what the fields the
constructor does not assign keep).  The assignments to the dpi, flags and
swap-interval fields and to the function pointers are left out: no operation
modelled here reads them. -/
def FramebufferNativeWindow.ctor (k : Codes) (hal : Hal)
    (mem : FramebufferNativeWindow) : FramebufferNativeWindow :=
  -- : BASE(), fbDev(0), grDev(0), mUpdateOnDemand(false); the sp<> members start null
  let self : FramebufferNativeWindow :=
    { mem with
      fbDev := none
      grDev := NULL
      mUpdateOnDemand := false
      buffers := setSlot (setSlot mem.buffers 0 NULL) 1 NULL
      front := NULL }
  if hal.hw_get_module = 0 then
    let self := { self with fbDev := hal.framebuffer_open, grDev := hal.gralloc_open }
    match self.fbDev with
    | none => self
    | some fb =>
      if self.grDev = NULL then self
      else
        let self := { self with mUpdateOnDemand := fb.setUpdateRect }
        let self := { self with mNumBuffers := 2 }
        let self := { self with mNumFreeBuffers := 2 }
        let self := { self with mBufferHead := self.mNumBuffers - 1 }
        let self :=
          { self with
            objects := setObject self.objects hal.new0.addr
              { width := fb.width, height := fb.height, format := fb.format,
                usage := k.GRALLOC_USAGE_HW_FB,
                handle := hal.new0.handle, stride := hal.new0.stride }
            buffers := setSlot self.buffers 0 hal.new0.addr }
        let self :=
          { self with
            objects := setObject self.objects hal.new1.addr
              { width := fb.width, height := fb.height, format := fb.format,
                usage := k.GRALLOC_USAGE_HW_FB,
                handle := hal.new1.handle, stride := hal.new1.stride }
            buffers := setSlot self.buffers 1 hal.new1.addr }
        let self := { self with objects := allocInto self.objects (self.buffers 0) hal.alloc0 }
        let self := { self with objects := allocInto self.objects (self.buffers 1) hal.alloc1 }
        self
  else self

/-- The calls the destructor makes on the hardware layer. -/
inductive HalCall
  | free (handle : buffer_handle_t)
  | gralloc_close
  | framebuffer_close
  deriving DecidableEq

/-- The `grDev->free` call guarded by `buffers[i] != NULL`; `none` when the pointer
is not null and refers to no object. -/
def freeSlot (self : FramebufferNativeWindow) (i : Int) : Option (List HalCall) :=
  if self.buffers i ≠ NULL then
    (self.objects (self.buffers i)).map (fun nb => [HalCall.free nb.handle])
  else some []

/-- The destructor `FramebufferNativeWindow::~FramebufferNativeWindow()`: the calls
it makes on the hardware layer, in order. -/
def FramebufferNativeWindow.dtor (self : FramebufferNativeWindow) :
    Option (List HalCall) := do
  let gr ←
    if self.grDev ≠ NULL then do
      let f0 ← freeSlot self 0
      let f1 ← freeSlot self 1
      pure (f0 ++ f1 ++ [HalCall.gralloc_close])
    else pure []
  let fb := if self.fbDev.isSome then [HalCall.framebuffer_close] else []
  pure (gr ++ fb)

/-- The body of `dequeueBuffer` after the wait loop: the new state, the returned
status and the pointer stored in `*buffer`. -/
def FramebufferNativeWindow.takeBuffer (self : FramebufferNativeWindow) :
    FramebufferNativeWindow × Int × Ptr :=
  -- self->mNumFreeBuffers--;
  let self1 := { self with mNumFreeBuffers := int32_dec self.mNumFreeBuffers }
  -- int index = self->mBufferHead++;
  let index := self1.mBufferHead
  let self2 := { self1 with mBufferHead := int32_inc self1.mBufferHead }
  -- if (self->mBufferHead >= self->mNumBuffers) self->mBufferHead = 0;
  let self3 :=
    if self2.mBufferHead ≥ self2.mNumBuffers then { self2 with mBufferHead := 0 } else self2
  (self3, 0, self3.buffers index)

/-- `FramebufferNativeWindow::dequeueBuffer`.  `self` is the state on entry, the
list holds the states found at the successive returns of `mCondition.wait`.
`none`: the call is still waiting after the last of them. -/
def FramebufferNativeWindow.dequeueBuffer :
    FramebufferNativeWindow → List FramebufferNativeWindow →
      Option (FramebufferNativeWindow × Int × Ptr)
  | self, [] =>
      if self.mNumFreeBuffers = 0 then none else some self.takeBuffer
  | self, woken :: later =>
      if self.mNumFreeBuffers = 0 then FramebufferNativeWindow.dequeueBuffer woken later
      else some self.takeBuffer

/-- `FramebufferNativeWindow::lockBuffer`, with the states found at the returns of
`mCondition.wait` as for `dequeueBuffer`.  `none`: the call is still waiting. -/
def FramebufferNativeWindow.lockBuffer (k : Codes) :
    FramebufferNativeWindow → Ptr → List FramebufferNativeWindow →
      Option (FramebufferNativeWindow × Int)
  | self, buffer, [] =>
      if self.front = buffer then none else some (self, k.NO_ERROR)
  | self, buffer, woken :: later =>
      if self.front = buffer then FramebufferNativeWindow.lockBuffer k woken buffer later
      else some (self, k.NO_ERROR)

/-- `FramebufferNativeWindow::queueBuffer`.  `post` is what `fb->post` returns for a
handle at this call.  `none`: the call dereferences a null `fbDev` or a `buffer`
that points to no `NativeBuffer`.  The `mCondition.broadcast()` changes no field; it
is what makes the waiting calls return from `wait` and find the state left here. -/
def FramebufferNativeWindow.queueBuffer (self : FramebufferNativeWindow)
    (buffer : Ptr) (post : buffer_handle_t → Int) :
    Option (FramebufferNativeWindow × Int) :=
  if buffer = NULL then none
  else
    match self.fbDev, self.objects buffer with
    | some _, some nb =>
        let handle := nb.handle
        let res := post handle
        -- self->front = static_cast<NativeBuffer*>(buffer);
        let self1 := { self with front := buffer }
        -- self->mNumFreeBuffers++;
        let self2 := { self1 with mNumFreeBuffers := int32_inc self1.mNumFreeBuffers }
        some (self2, res)
    | _, _ => none

/-- `FramebufferNativeWindow::query`: the state afterwards, the returned status and
the value stored in `*value`.  `none`: a recognised attribute is read through a
null `fbDev`. -/
def FramebufferNativeWindow.query (k : Codes) (self : FramebufferNativeWindow)
    (what : Int) : Option (FramebufferNativeWindow × Int × Int) :=
  if what = k.NATIVE_WINDOW_WIDTH then
    self.fbDev.map (fun fb => (self, k.NO_ERROR, fb.width))
  else if what = k.NATIVE_WINDOW_HEIGHT then
    self.fbDev.map (fun fb => (self, k.NO_ERROR, fb.height))
  else if what = k.NATIVE_WINDOW_FORMAT then
    self.fbDev.map (fun fb => (self, k.NO_ERROR, fb.format))
  else some (self, k.BAD_VALUE, 0)

/-! ## Runs of the hand-off protocol -/

/-- Construction goes through: the gralloc module is found, both devices open, and
the two `new NativeBuffer` yield two different objects. -/
def Hal.usable (hal : Hal) : Prop :=
  hal.hw_get_module = 0 ∧ hal.framebuffer_open.isSome = true ∧ hal.gralloc_open ≠ NULL ∧
  hal.new0.addr ≠ NULL ∧ hal.new1.addr ≠ NULL ∧ hal.new0.addr ≠ hal.new1.addr

instance (hal : Hal) : Decidable hal.usable := by
  unfold Hal.usable; infer_instance

/-- A completed call of the renderer: a `dequeueBuffer` that returned, or a
`queueBuffer` on `buffer` whose `fb->post` returned `res`. -/
inductive Call
  | dequeueBuffer
  | queueBuffer (buffer : Ptr) (res : Int)
  deriving DecidableEq

/-- A window together with the history of a run: `returned` lists the buffers the
completed `dequeueBuffer` calls returned (oldest first), `queued` the buffers given
to `queueBuffer` (oldest first), `held` the buffers that were returned by a
`dequeueBuffer` and have not been queued since (each buffer once). -/
structure RunState where
  self : FramebufferNativeWindow
  returned : List Ptr
  queued : List Ptr
  held : List Ptr

/-- The start of a run on a window. -/
def RunState.start (w : FramebufferNativeWindow) : RunState :=
  { self := w, returned := [], queued := [], held := [] }

/-- The number of completed `dequeueBuffer` calls not yet matched by a
`queueBuffer`. -/
def RunState.outstanding (r : RunState) : Int :=
  (r.returned.length : Int) - (r.queued.length : Int)

/-- One completed call.  `none`: the `dequeueBuffer` does not complete in this state
(it waits), or the `queueBuffer` dereferences an invalid pointer. -/
def RunState.call (r : RunState) : Call → Option RunState
  | .dequeueBuffer =>
      match r.self.dequeueBuffer [] with
      | none => none
      | some (w, _, b) =>
          some { self := w
                 returned := r.returned ++ [b]
                 queued := r.queued
                 held := if b ∈ r.held then r.held else b :: r.held }
  | .queueBuffer buffer res =>
      match r.self.queueBuffer buffer (fun _ => res) with
      | none => none
      | some (w, _) =>
          some { self := w
                 returned := r.returned
                 queued := r.queued ++ [buffer]
                 held := r.held.filter (fun b => b ≠ buffer) }

/-- A run: the calls of the list one after the other, each admitted by the
discipline `ok` in the state it is made in.  `none`: some call is not admitted or
does not complete. -/
def RunState.exec (ok : RunState → Call → Bool) : RunState → List Call → Option RunState
  | r, [] => some r
  | r, c :: cs =>
      if ok r c then
        match r.call c with
        | none => none
        | some r1 => RunState.exec ok r1 cs
      else none

/-- No restriction: `queueBuffer` with any buffer at any time. -/
def anyCall : RunState → Call → Bool :=
  fun _ _ => true

/-- The discipline `queueBuffer` only while a `dequeueBuffer` is outstanding (with
any buffer). -/
def whileOutstanding : RunState → Call → Bool
  | _, .dequeueBuffer => true
  | r, .queueBuffer _ _ => decide (0 < r.outstanding)

/-- The discipline `queueBuffer` only on a buffer currently held. -/
def heldOnly : RunState → Call → Bool
  | _, .dequeueBuffer => true
  | r, .queueBuffer buffer _ => decide (buffer ∈ r.held)

/-- The discipline of `heldOnly` with, in addition, `dequeueBuffer` only when no
buffer is held. -/
def oneAtATime : RunState → Call → Bool
  | r, .dequeueBuffer => decide (r.held = [])
  | r, .queueBuffer buffer _ => decide (buffer ∈ r.held)

/-- Rounds of a renderer that alternates strictly: `dequeueBuffer`, then
`queueBuffer` of the buffer just returned, once for each post status of the list.
`none`: a `dequeueBuffer` has to wait or a `queueBuffer` is undefined. -/
def swapRounds : FramebufferNativeWindow → List Int → Option FramebufferNativeWindow
  | w, [] => some w
  | w, res :: rest =>
      match w.dequeueBuffer [] with
      | none => none
      | some (w1, _, b) =>
          match w1.queueBuffer b (fun _ => res) with
          | none => none
          | some (w2, _) => swapRounds w2 rest

/-! ## Concrete data for the evaluated runs -/

/-- A 1024 x 768 framebuffer device. -/
def sampleFb : framebuffer_device_t :=
  { width := 1024, height := 768, format := 1, setUpdateRect := false }

/-- A hardware layer on which construction succeeds: the buffer objects are at
addresses 100 and 200, their handles are 11 and 22. -/
def sampleHal : Hal :=
  { hw_get_module := 0
    framebuffer_open := some sampleFb
    gralloc_open := 7
    new0 := { addr := 100, handle := 0, stride := 0 }
    new1 := { addr := 200, handle := 0, stride := 0 }
    alloc0 := { err := 0, handle := some 11, stride := some 1024 }
    alloc1 := { err := 0, handle := some 22, stride := some 1024 } }

/-- The hardware layer of `sampleHal` with a second `alloc` that fails with
`-ENOMEM` and stores nothing; `unset` is what the handle field of the second
object, which no code ever assigns, happens to hold. -/
def failingHal (unset : buffer_handle_t) : Hal :=
  { sampleHal with
    new1 := { addr := 200, handle := unset, stride := 0 }
    alloc1 := { err := -12, handle := none, stride := none } }

/-- Object storage before construction. -/
def rawStorage : FramebufferNativeWindow :=
  { fbDev := none
    grDev := NULL
    mUpdateOnDemand := false
    mNumBuffers := 0
    mNumFreeBuffers := 0
    mBufferHead := 0
    buffers := fun _ => NULL
    front := NULL
    objects := fun _ => none }

/-- The window constructed on `sampleHal`. -/
def sampleWindow : FramebufferNativeWindow :=
  FramebufferNativeWindow.ctor androidCodes sampleHal rawStorage

/-! ## Predicates used in the statements -/

/-- The part of the state no operation changes, for a window whose two slots hold
the live, different buffers `b0` and `b1`. -/
def Ready (w : FramebufferNativeWindow) (b0 b1 : Ptr) : Prop :=
  w.mNumBuffers = 2 ∧ w.buffers 0 = b0 ∧ w.buffers 1 = b1 ∧
  w.fbDev.isSome = true ∧ (w.objects b0).isSome = true ∧ (w.objects b1).isSome = true ∧
  b0 ≠ NULL ∧ b1 ≠ NULL ∧ b0 ≠ b1

/-- The `NativeBuffer` the constructor leaves in a slot: created by `new` with the
dimensions of the device, then written by `alloc`. -/
def builtBuffer (k : Codes) (fb : framebuffer_device_t) (n : NewResult) (a : AllocResult) :
    NativeBuffer :=
  { width := fb.width, height := fb.height, format := fb.format,
    usage := k.GRALLOC_USAGE_HW_FB,
    handle := a.handle.getD n.handle, stride := a.stride.getD n.stride }

/-- The buffer the `n`-th completed `dequeueBuffer` (counted from 0) returns on a
ring whose slots hold `b0` and `b1`: slot `(n + 1) mod 2`. -/
def rotation (b0 b1 : Ptr) (n : Nat) : Ptr :=
  if (n + 1) % 2 = 0 then b0 else b1

/-- What holds in every state of every run from a freshly constructed window,
whatever the calls: the static part, the head at the slot after the last one handed
out, and the hand-out order. -/
def RingInv (b0 b1 : Ptr) (r : RunState) : Prop :=
  Ready r.self b0 b1 ∧
  r.self.mBufferHead = (((r.returned.length + 1) % 2 : Nat) : Int) ∧
  ∀ i : Nat, i < r.returned.length → r.returned[i]? = some (rotation b0 b1 i)

/-- What holds along runs in which `queueBuffer` is called only while a
`dequeueBuffer` is outstanding: the free count is 2 minus the number of outstanding
`dequeueBuffer` calls, which is between 0 and 2. -/
def CountInv (r : RunState) : Prop :=
  r.self.mNumFreeBuffers = 2 - r.outstanding ∧ 0 ≤ r.outstanding ∧ r.outstanding ≤ 2

/-- The window of `sampleWindow` after so many unmatched `queueBuffer` calls that
the free count is at the top of its range. -/
def fullCountWindow : FramebufferNativeWindow :=
  { sampleWindow with mNumFreeBuffers := 2147483647 }

/-- The sample run: `dequeueBuffer`, `queueBuffer(200)`, `dequeueBuffer` (the first
call returns the buffer at 200). -/
def sampleCalls : List Call :=
  [Call.dequeueBuffer, Call.queueBuffer 200 0, Call.dequeueBuffer]

/-- One full round: `dequeueBuffer` (returns the buffer at 200), `queueBuffer(200)`. -/
def sampleRoundCalls : List Call :=
  [Call.dequeueBuffer, Call.queueBuffer 200 0]

/-- The state one full round reaches. -/
def sampleRound : RunState :=
  (RunState.exec oneAtATime (RunState.start sampleWindow) sampleRoundCalls).getD
    (RunState.start sampleWindow)

/-- The state the sample run reaches. -/
def sampleRun : RunState :=
  (RunState.exec oneAtATime (RunState.start sampleWindow) sampleCalls).getD
    (RunState.start sampleWindow)

/-- What holds in addition along runs in which the renderer has at most one buffer
at a time: either no buffer is held, none is outstanding and `front` is not the
buffer of the head slot, or exactly the buffer of the other slot is held. -/
def OneInv (r : RunState) : Prop :=
  (r.held = [] ∧ r.outstanding = 0 ∧
    r.self.front ≠ r.self.buffers r.self.mBufferHead) ∨
  (r.held = [r.self.buffers (1 - r.self.mBufferHead)] ∧ r.outstanding = 1)

/-- What holds between the rounds of a strictly alternating renderer: both buffers
are free, the head is in range and `front` is not the buffer of the head slot. -/
def SwapInv (b0 b1 : Ptr) (w : FramebufferNativeWindow) : Prop :=
  Ready w b0 b1 ∧ w.mNumFreeBuffers = 2 ∧ (w.mBufferHead = 0 ∨ w.mBufferHead = 1) ∧
  w.front ≠ w.buffers w.mBufferHead

/-! ## The 32-bit counters -/

/-- Below `INT32_MAX` the increment adds 1. -/
theorem int32_inc_of_lt (x : Int) (h : x < INT32_MAX) : int32_inc x = x + 1 := by
  unfold int32_inc
  rw [if_neg (by omega)]

/-- Above `INT32_MIN` the decrement takes 1. -/
theorem int32_dec_of_gt (x : Int) (h : INT32_MIN < x) : int32_dec x = x - 1 := by
  unfold int32_dec
  rw [if_neg (by omega)]

/-- On the 32-bit range the increment is addition of 1 modulo `2 ^ 32`, read as a
signed number. -/
theorem int32_inc_wraps (x : Int) (h0 : INT32_MIN ≤ x) (h1 : x ≤ INT32_MAX) :
    int32_inc x = (x + 1 + 2 ^ 31) % 2 ^ 32 - 2 ^ 31 := by
  unfold int32_inc
  unfold INT32_MIN at h0
  unfold INT32_MAX at h1 ⊢
  by_cases hx : x = 2147483647
  · rw [if_pos hx, hx]
    decide
  · rw [if_neg hx]
    omega

/-- On the 32-bit range the decrement is subtraction of 1 modulo `2 ^ 32`, read as a
signed number. -/
theorem int32_dec_wraps (x : Int) (h0 : INT32_MIN ≤ x) (h1 : x ≤ INT32_MAX) :
    int32_dec x = (x - 1 + 2 ^ 31) % 2 ^ 32 - 2 ^ 31 := by
  unfold int32_dec
  unfold INT32_MAX at h1
  unfold INT32_MIN at h0 ⊢
  by_cases hx : x = -2147483648
  · rw [if_pos hx, hx]
    decide
  · rw [if_neg hx]
    omega

/-! ## The single operations -/

theorem dequeueBuffer_nil (self : FramebufferNativeWindow) :
    self.dequeueBuffer [] =
      if self.mNumFreeBuffers = 0 then none else some self.takeBuffer := by
  simp [FramebufferNativeWindow.dequeueBuffer]

theorem dequeueBuffer_of_free (self : FramebufferNativeWindow)
    (h : self.mNumFreeBuffers ≠ 0) (wakes : List FramebufferNativeWindow) :
    self.dequeueBuffer wakes = some self.takeBuffer := by
  cases wakes <;> simp [FramebufferNativeWindow.dequeueBuffer, h]

/-- The effect of the body of `dequeueBuffer` on a ring of two buffers whose head
is in range. -/
theorem takeBuffer_two (self : FramebufferNativeWindow) (hn : self.mNumBuffers = 2)
    (h0 : 0 ≤ self.mBufferHead) (h2 : self.mBufferHead < 2) :
    self.takeBuffer =
      ({ self with
          mNumFreeBuffers := int32_dec self.mNumFreeBuffers
          mBufferHead := (self.mBufferHead + 1) % 2 }, 0, self.buffers self.mBufferHead) := by
  have hcases : self.mBufferHead = 0 ∨ self.mBufferHead = 1 := by omega
  rcases hcases with h | h <;>
    simp [FramebufferNativeWindow.takeBuffer, hn, h, int32_inc, INT32_MAX]

/-- The free count after the body of `dequeueBuffer`, whatever the head. -/
theorem takeBuffer_free (self : FramebufferNativeWindow) :
    self.takeBuffer.1.mNumFreeBuffers = int32_dec self.mNumFreeBuffers := by
  unfold FramebufferNativeWindow.takeBuffer
  simp only
  split <;> rfl

theorem lockBuffer_nil (k : Codes) (self : FramebufferNativeWindow) (buffer : Ptr) :
    self.lockBuffer k buffer [] =
      if self.front = buffer then none else some (self, k.NO_ERROR) := by
  simp [FramebufferNativeWindow.lockBuffer]

theorem lockBuffer_cons (k : Codes) (self woken : FramebufferNativeWindow) (buffer : Ptr)
    (later : List FramebufferNativeWindow) :
    self.lockBuffer k buffer (woken :: later) =
      if self.front = buffer then woken.lockBuffer k buffer later
      else some (self, k.NO_ERROR) := by
  simp [FramebufferNativeWindow.lockBuffer]

theorem lockBuffer_of_ne (k : Codes) (self : FramebufferNativeWindow) (buffer : Ptr)
    (h : self.front ≠ buffer) (wakes : List FramebufferNativeWindow) :
    self.lockBuffer k buffer wakes = some (self, k.NO_ERROR) := by
  cases wakes <;> simp [FramebufferNativeWindow.lockBuffer, h]

/-- A `lockBuffer` call completes exactly when the state on entry or one of the
states found at a wake-up has a `front` other than the buffer. -/
theorem lockBuffer_isSome_iff (k : Codes) (buffer : Ptr) :
    ∀ (wakes : List FramebufferNativeWindow) (self : FramebufferNativeWindow),
      (self.lockBuffer k buffer wakes).isSome = true ↔
        ∃ w ∈ self :: wakes, w.front ≠ buffer := by
  intro wakes
  induction wakes with
  | nil =>
    intro self
    rw [lockBuffer_nil]
    by_cases h : self.front = buffer <;> simp [h]
  | cons woken later ih =>
    intro self
    rw [lockBuffer_cons]
    by_cases h : self.front = buffer
    · rw [if_pos h, ih woken]
      simp [h]
    · simp [h]

theorem queueBuffer_live (self : FramebufferNativeWindow) (buffer : Ptr)
    (post : buffer_handle_t → Int) (fb : framebuffer_device_t) (nb : NativeBuffer)
    (hb : buffer ≠ NULL) (hfb : self.fbDev = some fb) (hnb : self.objects buffer = some nb) :
    self.queueBuffer buffer post =
      some ({ self with
                front := buffer, mNumFreeBuffers := int32_inc self.mNumFreeBuffers },
        post nb.handle) := by
  simp [FramebufferNativeWindow.queueBuffer, hb, hfb, hnb]

/-- A `queueBuffer` that is defined was made on a live buffer of a window with a
framebuffer device, and has the effect of `queueBuffer_live`. -/
theorem queueBuffer_some (self w : FramebufferNativeWindow) (buffer : Ptr)
    (post : buffer_handle_t → Int) (res : Int)
    (h : self.queueBuffer buffer post = some (w, res)) :
    buffer ≠ NULL ∧
    w = { self with front := buffer, mNumFreeBuffers := int32_inc self.mNumFreeBuffers } := by
  unfold FramebufferNativeWindow.queueBuffer at h
  by_cases hb : buffer = NULL
  · simp [hb] at h
  · rw [if_neg hb] at h
    refine ⟨hb, ?_⟩
    cases hfb : self.fbDev with
    | none => simp [hfb] at h
    | some fb =>
      cases hnb : self.objects buffer with
      | none => simp [hfb, hnb] at h
      | some nb =>
        simp [hfb, hnb] at h
        exact h.1.symm

/-! ## Construction -/

/-- The window a successful construction yields. -/
theorem ctor_usable (k : Codes) (hal : Hal) (mem : FramebufferNativeWindow)
    (fb : framebuffer_device_t) (h : hal.usable) (hfb : hal.framebuffer_open = some fb) :
    (FramebufferNativeWindow.ctor k hal mem).fbDev = some fb ∧
    (FramebufferNativeWindow.ctor k hal mem).grDev = hal.gralloc_open ∧
    (FramebufferNativeWindow.ctor k hal mem).mNumBuffers = 2 ∧
    (FramebufferNativeWindow.ctor k hal mem).mNumFreeBuffers = 2 ∧
    (FramebufferNativeWindow.ctor k hal mem).mBufferHead = 1 ∧
    (FramebufferNativeWindow.ctor k hal mem).buffers 0 = hal.new0.addr ∧
    (FramebufferNativeWindow.ctor k hal mem).buffers 1 = hal.new1.addr ∧
    (FramebufferNativeWindow.ctor k hal mem).front = NULL ∧
    (FramebufferNativeWindow.ctor k hal mem).objects hal.new0.addr =
      some (builtBuffer k fb hal.new0 hal.alloc0) ∧
    (FramebufferNativeWindow.ctor k hal mem).objects hal.new1.addr =
      some (builtBuffer k fb hal.new1 hal.alloc1) := by
  obtain ⟨hm, -, hgr, -, -, hne⟩ := h
  have hne2 : hal.new1.addr ≠ hal.new0.addr := fun e => hne e.symm
  simp [FramebufferNativeWindow.ctor, hm, hfb, hgr, setSlot, setObject, allocInto,
    builtBuffer, hne, hne2]

/-! ## queueBuffer -/

/-- C3 as stated fails at the top of the counter's range: in the state of the
sample window with `mNumFreeBuffers = 2147483647` (a count that 2147483645 unmatched
`queueBuffer` calls on the fresh window reach, see `fullCount_reachable`),
`queueBuffer` on the buffer at 100 leaves `mNumFreeBuffers = -2147483648`, not one
more. -/
theorem C3_counterexample :
    fullCountWindow.mNumFreeBuffers = 2147483647 ∧
    (fullCountWindow.queueBuffer 100 (fun _ => 0)).map
      (fun out => (out.1.mNumFreeBuffers, out.1.front, out.2)) =
      some (-2147483648, 100, 0) := by
  decide

/-- C3, amended: for every window state with a framebuffer device, every live
buffer `buffer` and every behaviour `post` of the display post call,
`queueBuffer(buffer)` sets `front` to `buffer`, leaves the head, the buffer slots
and every field other than `front` and `mNumFreeBuffers` as they were, and returns
the status of the post call, for every status `s`, success or error; the resulting
state does not depend on the status; and in every state with `mNumFreeBuffers`
below the maximum of the 32-bit counter it adds exactly 1 to `mNumFreeBuffers`. -/
theorem C3_queueBuffer_bookkeeping (self : FramebufferNativeWindow) (buffer : Ptr)
    (post : buffer_handle_t → Int) (fb : framebuffer_device_t) (nb : NativeBuffer)
    (hb : buffer ≠ NULL) (hfb : self.fbDev = some fb)
    (hnb : self.objects buffer = some nb) :
    (∃ count : Int,
      self.queueBuffer buffer post =
        some ({ self with front := buffer, mNumFreeBuffers := count }, post nb.handle) ∧
      (self.mNumFreeBuffers < INT32_MAX → count = self.mNumFreeBuffers + 1)) ∧
    (∀ s : Int, ∃ w, self.queueBuffer buffer (fun _ => s) = some (w, s) ∧
      w.front = buffer ∧
      (self.mNumFreeBuffers < INT32_MAX →
        w.mNumFreeBuffers = self.mNumFreeBuffers + 1) ∧
      w.mBufferHead = self.mBufferHead ∧ w.buffers = self.buffers ∧
      w.mNumBuffers = self.mNumBuffers) ∧
    (∀ post2 : buffer_handle_t → Int,
      Option.map Prod.fst (self.queueBuffer buffer post2) =
        Option.map Prod.fst (self.queueBuffer buffer post)) := by
  refine ⟨⟨int32_inc self.mNumFreeBuffers,
    queueBuffer_live self buffer post fb nb hb hfb hnb,
    fun hlt => int32_inc_of_lt _ hlt⟩, ?_, ?_⟩
  · intro s
    exact ⟨_, queueBuffer_live self buffer (fun _ => s) fb nb hb hfb hnb, rfl,
      fun hlt => int32_inc_of_lt _ hlt, rfl, rfl, rfl⟩
  · intro post2
    rw [queueBuffer_live self buffer post fb nb hb hfb hnb,
      queueBuffer_live self buffer post2 fb nb hb hfb hnb]
    rfl

/-- C3, amended, at the sample window: a post that fails with -5 on the buffer at
100 leaves `front` at 100 and 3 free buffers, and -5 is returned. -/
theorem C3_queueBuffer_bookkeeping_witness :
    sampleWindow.mNumFreeBuffers < INT32_MAX ∧
    ∃ w, sampleWindow.queueBuffer 100 (fun _ => -5) = some (w, -5) ∧
      w.front = 100 ∧ w.mNumFreeBuffers = sampleWindow.mNumFreeBuffers + 1 :=
  have hall := (C3_queueBuffer_bookkeeping sampleWindow 100 (fun _ => -5) sampleFb
    (builtBuffer androidCodes sampleFb sampleHal.new0 sampleHal.alloc0)
    (by decide) rfl rfl).2.1 (-5)
  have hlt : sampleWindow.mNumFreeBuffers < INT32_MAX := by decide
  hall.elim fun w hw => ⟨hlt, w, hw.1, hw.2.1, hw.2.2.1 hlt⟩

/-! ## dequeueBuffer -/

/-- C6: for every state and buffer, `lockBuffer(buffer)` completes exactly when
`buffer` is not `front`; when it completes it returns `NO_ERROR` and leaves the
state as it was; while `buffer` is `front` it waits and checks again at each return
of the wait.  Hence right after `queueBuffer(buffer)` a `lockBuffer(buffer)` waits,
and once `queueBuffer` has been called with a different buffer it completes (also
the call that had been waiting, on its next wake-up). -/
theorem C6_lockBuffer_contract (k : Codes) (self : FramebufferNativeWindow)
    (buffer : Ptr) :
    ((self.lockBuffer k buffer []).isSome = true ↔ self.front ≠ buffer) ∧
    (self.front ≠ buffer → ∀ wakes : List FramebufferNativeWindow,
      self.lockBuffer k buffer wakes = some (self, k.NO_ERROR)) ∧
    (self.front = buffer →
      ∀ (woken : FramebufferNativeWindow) (later : List FramebufferNativeWindow),
        self.lockBuffer k buffer (woken :: later) = woken.lockBuffer k buffer later) ∧
    (∀ wakes : List FramebufferNativeWindow,
      (self.lockBuffer k buffer wakes).isSome = true ↔
        ∃ w ∈ self :: wakes, w.front ≠ buffer) ∧
    (∀ (post : buffer_handle_t → Int) (w1 : FramebufferNativeWindow) (r1 : Int),
      self.queueBuffer buffer post = some (w1, r1) →
        w1.lockBuffer k buffer [] = none ∧
        ∀ (other : Ptr) (post2 : buffer_handle_t → Int) (w2 : FramebufferNativeWindow)
          (r2 : Int), other ≠ buffer → w1.queueBuffer other post2 = some (w2, r2) →
            w2.lockBuffer k buffer [] = some (w2, k.NO_ERROR) ∧
            w1.lockBuffer k buffer [w2] = some (w2, k.NO_ERROR)) := by
  refine ⟨?_, ?_, ?_, ?_, ?_⟩
  · rw [lockBuffer_nil]
    by_cases h : self.front = buffer <;> simp [h]
  · intro h wakes
    exact lockBuffer_of_ne k self buffer h wakes
  · intro h woken later
    rw [lockBuffer_cons, if_pos h]
  · intro wakes
    exact lockBuffer_isSome_iff k buffer wakes self
  · intro post w1 r1 hq
    have h1 := (queueBuffer_some self w1 buffer post r1 hq).2
    have hf1 : w1.front = buffer := by rw [h1]
    refine ⟨by rw [lockBuffer_nil, if_pos hf1], ?_⟩
    intro other post2 w2 r2 hne hq2
    have h2 := (queueBuffer_some w1 w2 other post2 r2 hq2).2
    have hf2 : w2.front ≠ buffer := by rw [h2]; exact hne
    refine ⟨lockBuffer_of_ne k w2 buffer hf2 [], ?_⟩
    rw [lockBuffer_cons, if_pos hf1]
    exact lockBuffer_of_ne k w2 buffer hf2 []

/-- C6 at the sample window, whose `front` is null: `lockBuffer` on the buffer at
100 completes. -/
theorem C6_lockBuffer_contract_witness :
    sampleWindow.front ≠ 100 ∧
    sampleWindow.lockBuffer androidCodes 100 [] = some (sampleWindow, 0) :=
  ⟨by decide, (C6_lockBuffer_contract androidCodes sampleWindow 100).2.1 (by decide) []⟩

/-! ## query -/

/-- C7: after a successful construction on a device of width `w`, height `h` and
format `f`, both buffers have these dimensions and format, and in every state with
that device `query(NATIVE_WINDOW_WIDTH)` returns `NO_ERROR` with value `w`,
`query(NATIVE_WINDOW_HEIGHT)` returns `NO_ERROR` with value `h`,
`query(NATIVE_WINDOW_FORMAT)` returns `NO_ERROR` with value `f`, and `query` of any
other attribute returns `BAD_VALUE` with value 0; the state is the same afterwards
in each case. -/
theorem C7_query_attributes (k : Codes) (hal : Hal) (mem : FramebufferNativeWindow)
    (fb : framebuffer_device_t) (h : hal.usable) (hl : k.distinctLabels)
    (hfb : hal.framebuffer_open = some fb) :
    (∀ i : Int, i = 0 ∨ i = 1 →
      ∃ nb, (FramebufferNativeWindow.ctor k hal mem).objects
              ((FramebufferNativeWindow.ctor k hal mem).buffers i) = some nb ∧
        nb.width = fb.width ∧ nb.height = fb.height ∧ nb.format = fb.format) ∧
    ∀ self : FramebufferNativeWindow,
      self.fbDev = (FramebufferNativeWindow.ctor k hal mem).fbDev →
        self.query k k.NATIVE_WINDOW_WIDTH = some (self, k.NO_ERROR, fb.width) ∧
        self.query k k.NATIVE_WINDOW_HEIGHT = some (self, k.NO_ERROR, fb.height) ∧
        self.query k k.NATIVE_WINDOW_FORMAT = some (self, k.NO_ERROR, fb.format) ∧
        ∀ what : Int, what ≠ k.NATIVE_WINDOW_WIDTH → what ≠ k.NATIVE_WINDOW_HEIGHT →
          what ≠ k.NATIVE_WINDOW_FORMAT → self.query k what = some (self, k.BAD_VALUE, 0) := by
  obtain ⟨hdev, -, -, -, -, hb0, hb1, -, ho0, ho1⟩ := ctor_usable k hal mem fb h hfb
  obtain ⟨hwh, hwf, hhf⟩ := hl
  refine ⟨?_, ?_⟩
  · intro i hi
    rcases hi with hi | hi
    · subst hi
      exact ⟨_, by rw [hb0, ho0], rfl, rfl, rfl⟩
    · subst hi
      exact ⟨_, by rw [hb1, ho1], rfl, rfl, rfl⟩
  · intro self hself
    rw [hdev] at hself
    refine ⟨?_, ?_, ?_, ?_⟩
    · simp [FramebufferNativeWindow.query, hself]
    · have e1 : ¬ k.NATIVE_WINDOW_HEIGHT = k.NATIVE_WINDOW_WIDTH := fun e => hwh e.symm
      simp [FramebufferNativeWindow.query, hself, e1]
    · have e1 : ¬ k.NATIVE_WINDOW_FORMAT = k.NATIVE_WINDOW_WIDTH := fun e => hwf e.symm
      have e2 : ¬ k.NATIVE_WINDOW_FORMAT = k.NATIVE_WINDOW_HEIGHT := fun e => hhf e.symm
      simp [FramebufferNativeWindow.query, hself, e1, e2]
    · intro what h1 h2 h3
      simp [FramebufferNativeWindow.query, h1, h2, h3]

/-- C7 at the sample window: the height is 768, attribute 7 is not known. -/
theorem C7_query_attributes_witness :
    sampleWindow.query androidCodes 1 = some (sampleWindow, 0, 768) ∧
    sampleWindow.query androidCodes 7 = some (sampleWindow, -22, 0) :=
  have hq := (C7_query_attributes androidCodes sampleHal rawStorage sampleFb
    (by decide) (by decide) rfl).2 sampleWindow rfl
  ⟨hq.2.1, hq.2.2.2 7 (by decide) (by decide) (by decide)⟩

/-! ## Teardown -/

/-- C8: the code does not do what the claim says.  With the first allocation
successful (status 0, handle 11) and the second failed (status -12, nothing stored),
the destructor calls `free` twice: on the handle of slot 0 and then on the content of
the handle field of slot 1, which was never assigned (`unset`, whatever it is); the
claim asks for the single call `free(11)`. -/
theorem C8_teardown_after_failed_alloc (unset : buffer_handle_t) :
    (failingHal unset).alloc0.err = 0 ∧ (failingHal unset).alloc1.err = -12 ∧
    (FramebufferNativeWindow.ctor androidCodes (failingHal unset) rawStorage).dtor =
      some [HalCall.free 11, HalCall.free unset, HalCall.gralloc_close,
        HalCall.framebuffer_close] ∧
    (FramebufferNativeWindow.ctor androidCodes (failingHal unset) rawStorage).dtor ≠
      some [HalCall.free 11, HalCall.gralloc_close, HalCall.framebuffer_close] := by
  have hd : (FramebufferNativeWindow.ctor androidCodes (failingHal unset) rawStorage).dtor =
      some [HalCall.free 11, HalCall.free unset, HalCall.gralloc_close,
        HalCall.framebuffer_close] := rfl
  refine ⟨rfl, rfl, hd, ?_⟩
  rw [hd]
  simp

/-! ## Runs -/

/-- A property every admitted, completed call preserves holds along every run. -/
theorem exec_invariant (ok : RunState → Call → Bool) (P : RunState → Prop)
    (hstep : ∀ (r : RunState) (c : Call) (r1 : RunState),
      ok r c = true → r.call c = some r1 → P r → P r1) :
    ∀ (cs : List Call) (r r1 : RunState), RunState.exec ok r cs = some r1 → P r → P r1 := by
  intro cs
  induction cs with
  | nil =>
    intro r r1 h hP
    simp [RunState.exec] at h
    subst h
    exact hP
  | cons c cs ih =>
    intro r r1 h hP
    unfold RunState.exec at h
    by_cases hok : ok r c = true
    · rw [if_pos hok] at h
      cases hc : r.call c with
      | none => simp [hc] at h
      | some r2 =>
        simp only [hc] at h
        exact ih r2 r1 h (hstep r c r2 hok hc hP)
    · rw [if_neg hok] at h
      cases h

/-- A completed `dequeueBuffer` of a run. -/
theorem call_dequeue (r r1 : RunState) (h : r.call Call.dequeueBuffer = some r1) :
    r.self.mNumFreeBuffers ≠ 0 ∧
    r1 = { self := r.self.takeBuffer.1
           returned := r.returned ++ [r.self.takeBuffer.2.2]
           queued := r.queued
           held := if r.self.takeBuffer.2.2 ∈ r.held then r.held
                   else r.self.takeBuffer.2.2 :: r.held } := by
  unfold RunState.call at h
  rw [dequeueBuffer_nil] at h
  by_cases hz : r.self.mNumFreeBuffers = 0
  · simp [hz] at h
  · refine ⟨hz, ?_⟩
    simp only [if_neg hz] at h
    exact (Option.some.inj h).symm

/-- A completed `queueBuffer` of a run. -/
theorem call_queue (r r1 : RunState) (buffer : Ptr) (res : Int)
    (h : r.call (Call.queueBuffer buffer res) = some r1) :
    buffer ≠ NULL ∧
    r1 = { self := { r.self with
                      front := buffer
                      mNumFreeBuffers := int32_inc r.self.mNumFreeBuffers }
           returned := r.returned
           queued := r.queued ++ [buffer]
           held := r.held.filter (fun b => b ≠ buffer) } := by
  unfold RunState.call at h
  cases hq : r.self.queueBuffer buffer (fun _ => res) with
  | none => simp [hq] at h
  | some out =>
    obtain ⟨w, st⟩ := out
    obtain ⟨hb, hw⟩ := queueBuffer_some r.self w buffer _ st hq
    refine ⟨hb, ?_⟩
    simp only [hq] at h
    rw [← Option.some.inj h, hw]

/-- The effect of a completed `dequeueBuffer` in a state of `RingInv`. -/
theorem takeBuffer_ringInv (b0 b1 : Ptr) (r : RunState) (hinv : RingInv b0 b1 r) :
    r.self.takeBuffer =
      ({ r.self with
          mNumFreeBuffers := int32_dec r.self.mNumFreeBuffers
          mBufferHead := (r.self.mBufferHead + 1) % 2 },
        0, rotation b0 b1 r.returned.length) := by
  obtain ⟨hready, hhead, -⟩ := hinv
  obtain ⟨hn, hb0, hb1, -⟩ := hready
  rw [takeBuffer_two r.self hn (by omega) (by omega)]
  have hbuf : r.self.buffers r.self.mBufferHead = rotation b0 b1 r.returned.length := by
    unfold rotation
    by_cases hpar : (r.returned.length + 1) % 2 = 0
    · rw [hhead, hpar, if_pos rfl]
      exact hb0
    · have h1 : (r.returned.length + 1) % 2 = 1 := by omega
      rw [hhead, h1, if_neg (by decide)]
      exact hb1
  rw [hbuf]

theorem ringInv_call (b0 b1 : Ptr) (r : RunState) (c : Call) (r1 : RunState)
    (hc : r.call c = some r1) (hinv : RingInv b0 b1 r) : RingInv b0 b1 r1 := by
  have htake := takeBuffer_ringInv b0 b1 r hinv
  obtain ⟨hready, hhead, hret⟩ := hinv
  cases c with
  | dequeueBuffer =>
    obtain ⟨hne, hr1⟩ := call_dequeue r r1 hc
    rw [htake] at hr1
    subst hr1
    refine ⟨hready, ?_, ?_⟩
    · show (r.self.mBufferHead + 1) % 2 = _
      simp only [List.length_append, List.length_singleton]
      omega
    · intro i hi
      simp only [List.length_append, List.length_singleton] at hi
      by_cases hlt : i < r.returned.length
      · rw [List.getElem?_append_left hlt]
        exact hret i hlt
      · have hieq : i = r.returned.length := by omega
        subst hieq
        simp
  | queueBuffer buffer res =>
    obtain ⟨hb, hr1⟩ := call_queue r r1 buffer res hc
    subst hr1
    exact ⟨hready, hhead, hret⟩

/-- A completed call preserves `CountInv` when, if it is a `queueBuffer`, some
`dequeueBuffer` is outstanding: the counter then stays away from the ends of its
range. -/
theorem countInv_call (r : RunState) (c : Call) (r1 : RunState)
    (hc : r.call c = some r1) (hinv : CountInv r)
    (hq : c ≠ Call.dequeueBuffer → 0 < r.outstanding) : CountInv r1 := by
  obtain ⟨hcount, hlo, hhi⟩ := hinv
  cases c with
  | dequeueBuffer =>
    obtain ⟨hne, hr1⟩ := call_dequeue r r1 hc
    subst hr1
    have hdec : int32_dec r.self.mNumFreeBuffers = r.self.mNumFreeBuffers - 1 :=
      int32_dec_of_gt _ (by unfold INT32_MIN; omega)
    unfold CountInv
    simp only [takeBuffer_free, hdec, RunState.outstanding, List.length_append,
      List.length_singleton] at hcount hlo hhi ⊢
    push_cast
    omega
  | queueBuffer buffer res =>
    obtain ⟨-, hr1⟩ := call_queue r r1 buffer res hc
    subst hr1
    have hpos : 0 < r.outstanding := hq (by simp)
    have hinc : int32_inc r.self.mNumFreeBuffers = r.self.mNumFreeBuffers + 1 :=
      int32_inc_of_lt _ (by unfold INT32_MAX; omega)
    unfold CountInv
    simp only [hinc, RunState.outstanding, List.length_append,
      List.length_singleton] at hcount hlo hhi hpos ⊢
    push_cast
    omega

/-- The start of a run on a freshly constructed window satisfies `RingInv`. -/
theorem ringInv_start (k : Codes) (hal : Hal) (mem : FramebufferNativeWindow)
    (h : hal.usable) :
    RingInv hal.new0.addr hal.new1.addr
      (RunState.start (FramebufferNativeWindow.ctor k hal mem)) := by
  obtain ⟨fb, hfb⟩ := Option.isSome_iff_exists.mp h.2.1
  obtain ⟨hdev, -, hn, hfree, hhead, hb0, hb1, -, ho0, ho1⟩ := ctor_usable k hal mem fb h hfb
  obtain ⟨-, -, -, hn0, hn1, hne⟩ := h
  refine ⟨⟨hn, hb0, hb1, by simp [RunState.start, hdev], by simp [RunState.start, ho0],
    by simp [RunState.start, ho1], hn0, hn1, hne⟩, ?_, ?_⟩
  · show (FramebufferNativeWindow.ctor k hal mem).mBufferHead = _
    simp [RunState.start, hhead]
  · intro i hi
    simp [RunState.start] at hi

/-- The start of a run on a freshly constructed window satisfies `CountInv`. -/
theorem countInv_start (k : Codes) (hal : Hal) (mem : FramebufferNativeWindow)
    (h : hal.usable) :
    CountInv (RunState.start (FramebufferNativeWindow.ctor k hal mem)) := by
  obtain ⟨fb, hfb⟩ := Option.isSome_iff_exists.mp h.2.1
  obtain ⟨-, -, -, hfree, -⟩ := ctor_usable k hal mem fb h hfb
  refine ⟨?_, ?_, ?_⟩
  · show (FramebufferNativeWindow.ctor k hal mem).mNumFreeBuffers = _
    simp [RunState.outstanding, RunState.start, hfree]
  · simp [RunState.outstanding, RunState.start]
  · simp [RunState.outstanding, RunState.start]

/-- Along every run from a freshly constructed window `RingInv` holds. -/
theorem ringInv_exec (k : Codes) (hal : Hal) (mem : FramebufferNativeWindow)
    (h : hal.usable) (ok : RunState → Call → Bool) (cs : List Call) (r : RunState)
    (hrun : RunState.exec ok (RunState.start (FramebufferNativeWindow.ctor k hal mem)) cs
      = some r) :
    RingInv hal.new0.addr hal.new1.addr r :=
  exec_invariant ok (RingInv hal.new0.addr hal.new1.addr)
    (fun r c r1 _ hc hinv => ringInv_call _ _ r c r1 hc hinv) cs _ r hrun
    (ringInv_start k hal mem h)

/-! ## The free count along runs -/

/-- Unmatched `queueBuffer` calls on a live buffer each add 1 to the free count as
long as it stays within the 32-bit range. -/
theorem exec_unmatched_queues (buffer : Ptr) (res : Int) (hb : buffer ≠ NULL) :
    ∀ (n : Nat) (r : RunState), r.self.fbDev.isSome = true →
      (r.self.objects buffer).isSome = true →
      r.self.mNumFreeBuffers + (n : Int) ≤ INT32_MAX →
      ∃ r1, RunState.exec anyCall r (List.replicate n (Call.queueBuffer buffer res))
          = some r1 ∧
        r1.self.mNumFreeBuffers = r.self.mNumFreeBuffers + (n : Int) := by
  intro n
  induction n with
  | zero =>
    intro r _ _ _
    exact ⟨r, rfl, by simp⟩
  | succ n ih =>
    intro r hfb hnb hle
    obtain ⟨fb, hfb1⟩ := Option.isSome_iff_exists.mp hfb
    obtain ⟨nb, hnb1⟩ := Option.isSome_iff_exists.mp hnb
    have hq := queueBuffer_live r.self buffer (fun _ => res) fb nb hb hfb1 hnb1
    have hinc : int32_inc r.self.mNumFreeBuffers = r.self.mNumFreeBuffers + 1 :=
      int32_inc_of_lt _ (by push_cast at hle; omega)
    obtain ⟨r1, hrun, hfree⟩ := ih
      { self := { r.self with
                    front := buffer, mNumFreeBuffers := int32_inc r.self.mNumFreeBuffers }
        returned := r.returned
        queued := r.queued ++ [buffer]
        held := r.held.filter (fun b => b ≠ buffer) }
      hfb hnb (by
        show int32_inc r.self.mNumFreeBuffers + (n : Int) ≤ INT32_MAX
        rw [hinc]
        push_cast at hle
        omega)
    refine ⟨r1, ?_, ?_⟩
    · rw [List.replicate_succ]
      simp only [RunState.exec, anyCall, RunState.call, hq, if_true]
      exact hrun
    · rw [hfree]
      show int32_inc r.self.mNumFreeBuffers + (n : Int) = _
      rw [hinc]
      push_cast
      omega

/-- The top of the counter's range is reached from the sample window by 2147483645
unmatched `queueBuffer` calls. -/
theorem fullCount_reachable :
    ∃ r, RunState.exec anyCall (RunState.start sampleWindow)
        (List.replicate 2147483645 (Call.queueBuffer 100 0)) = some r ∧
      r.self.mNumFreeBuffers = 2147483647 := by
  obtain ⟨r, hrun, hfree⟩ := exec_unmatched_queues 100 0 (by decide) 2147483645
    (RunState.start sampleWindow) rfl rfl (by decide)
  refine ⟨r, hrun, ?_⟩
  rw [hfree]
  decide

theorem filter_ne_length_lt (l : List Ptr) (b : Ptr) (h : b ∈ l) :
    (l.filter (fun x => x ≠ b)).length < l.length := by
  rw [List.length_filter_lt_length_iff_exists]
  exact ⟨b, h, by simp⟩

/-- C1 as stated fails: a `queueBuffer` made on the fresh window, before any
`dequeueBuffer`, takes `mNumFreeBuffers` from 2 to 3. -/
theorem C1_counterexample :
    (RunState.exec anyCall (RunState.start sampleWindow) [Call.queueBuffer 100 0]).map
      (fun r => r.self.mNumFreeBuffers) = some 3 := by
  decide

/-- C1, amended: along every run of `dequeueBuffer` and `queueBuffer` calls from the
freshly constructed window, with `queueBuffer` called with any buffer at any time,
`mNumFreeBuffers` is not negative as long as at most 2147483645 (`2 ^ 31 - 3`)
`queueBuffer` calls have been made, so that the 32-bit counter has not gone past
its maximum; and when `queueBuffer` is called (with any buffer) only while some
completed `dequeueBuffer` has not been matched by a `queueBuffer` yet,
`0 ≤ mNumFreeBuffers ≤ 2` in every state reached, however long the run. -/
theorem C1_free_count_bounds (k : Codes) (hal : Hal) (mem : FramebufferNativeWindow)
    (h : hal.usable) (cs : List Call) (r : RunState) :
    (RunState.exec anyCall (RunState.start (FramebufferNativeWindow.ctor k hal mem)) cs
        = some r → r.queued.length ≤ 2147483645 → 0 ≤ r.self.mNumFreeBuffers) ∧
    (RunState.exec whileOutstanding
        (RunState.start (FramebufferNativeWindow.ctor k hal mem)) cs = some r →
      0 ≤ r.self.mNumFreeBuffers ∧ r.self.mNumFreeBuffers ≤ 2) := by
  refine ⟨fun hrun hlen => ?_, fun hrun => ?_⟩
  · have hP : r.queued.length ≤ 2147483645 →
        0 ≤ r.self.mNumFreeBuffers ∧
          r.self.mNumFreeBuffers ≤ 2 + (r.queued.length : Int) := by
      refine exec_invariant anyCall
        (fun r => r.queued.length ≤ 2147483645 →
          0 ≤ r.self.mNumFreeBuffers ∧
            r.self.mNumFreeBuffers ≤ 2 + (r.queued.length : Int)) ?_ cs _ r hrun ?_
      · intro r c r1 _ hc hP
        cases c with
        | dequeueBuffer =>
          obtain ⟨hne, hr1⟩ := call_dequeue r r1 hc
          subst hr1
          intro hlen
          obtain ⟨h0, h1⟩ := hP hlen
          have hdec : int32_dec r.self.mNumFreeBuffers = r.self.mNumFreeBuffers - 1 :=
            int32_dec_of_gt _ (by unfold INT32_MIN; omega)
          simp only [takeBuffer_free, hdec]
          omega
        | queueBuffer buffer res =>
          obtain ⟨-, hr1⟩ := call_queue r r1 buffer res hc
          subst hr1
          intro hlen
          simp only [List.length_append, List.length_singleton] at hlen ⊢
          obtain ⟨h0, h1⟩ := hP (by omega)
          have hinc : int32_inc r.self.mNumFreeBuffers = r.self.mNumFreeBuffers + 1 :=
            int32_inc_of_lt _ (by unfold INT32_MAX; omega)
          simp only [hinc]
          push_cast
          omega
      · intro _
        obtain ⟨fb, hfb⟩ := Option.isSome_iff_exists.mp h.2.1
        obtain ⟨-, -, -, hfree, -⟩ := ctor_usable k hal mem fb h hfb
        show 0 ≤ (FramebufferNativeWindow.ctor k hal mem).mNumFreeBuffers ∧
          (FramebufferNativeWindow.ctor k hal mem).mNumFreeBuffers ≤ 2 + ((0 : Nat) : Int)
        rw [hfree]
        decide
    exact (hP hlen).1
  · have hinv : CountInv r := by
      refine exec_invariant whileOutstanding CountInv ?_ cs _ r hrun
        (countInv_start k hal mem h)
      intro r c r1 hok hc hP
      refine countInv_call r c r1 hc hP ?_
      intro hnd
      cases c with
      | dequeueBuffer => exact absurd rfl hnd
      | queueBuffer buffer res => simpa [whileOutstanding] using hok
    obtain ⟨hcount, hlo, hhi⟩ := hinv
    exact ⟨by omega, by omega⟩

/-- C1, amended, on the sample run. -/
theorem C1_free_count_bounds_witness :
    RunState.exec whileOutstanding (RunState.start sampleWindow) sampleCalls
        = some sampleRun ∧
    0 ≤ sampleRun.self.mNumFreeBuffers ∧ sampleRun.self.mNumFreeBuffers ≤ 2 :=
  ⟨rfl, (C1_free_count_bounds androidCodes sampleHal rawStorage (by decide) sampleCalls sampleRun).2 rfl⟩

/-- C9 as stated fails: in the run `dequeueBuffer`, `dequeueBuffer`,
`queueBuffer(100)`, `dequeueBuffer`, where each `queueBuffer` is on a held buffer,
the last `dequeueBuffer` returns the buffer at 200 a second time while it is still
held: `mNumFreeBuffers` is 0 and one buffer is held, 1 in all instead of 2. -/
theorem C9_counterexample :
    (RunState.exec heldOnly (RunState.start sampleWindow)
      [Call.dequeueBuffer, Call.dequeueBuffer, Call.queueBuffer 100 0,
        Call.dequeueBuffer]).map
      (fun r => (r.returned, r.held, r.self.mNumFreeBuffers + (r.held.length : Int)))
      = some ([200, 100, 200], [200], 1) := by
  decide

/-- C9, amended: in every state reachable from the freshly constructed window by
`dequeueBuffer` and `queueBuffer` calls in which each `queueBuffer` is on a buffer
currently held, `mNumFreeBuffers` plus the number of outstanding `dequeueBuffer`
calls (completed and not yet matched by a `queueBuffer`; a buffer handed out twice
counts twice) equals 2, the number of held buffers is at most that number, so that
`mNumFreeBuffers` plus the number of held buffers is at most 2, and
`0 ≤ mNumFreeBuffers ≤ 2`. -/
theorem C9_conservation (k : Codes) (hal : Hal) (mem : FramebufferNativeWindow)
    (h : hal.usable) (cs : List Call) (r : RunState)
    (hrun : RunState.exec heldOnly
      (RunState.start (FramebufferNativeWindow.ctor k hal mem)) cs = some r) :
    r.self.mNumFreeBuffers + r.outstanding = 2 ∧
    (r.held.length : Int) ≤ r.outstanding ∧
    r.self.mNumFreeBuffers + (r.held.length : Int) ≤ 2 ∧
    0 ≤ r.self.mNumFreeBuffers ∧ r.self.mNumFreeBuffers ≤ 2 := by
  have hboth : CountInv r ∧ (r.held.length : Int) ≤ r.outstanding := by
    refine exec_invariant heldOnly
      (fun r => CountInv r ∧ (r.held.length : Int) ≤ r.outstanding) ?_ cs _ r hrun ?_
    · intro r c r1 hok hc hP
      obtain ⟨hcnt, hP⟩ := hP
      cases c with
      | dequeueBuffer =>
        refine ⟨countInv_call r _ r1 hc hcnt (fun hnd => absurd rfl hnd), ?_⟩
        obtain ⟨-, hr1⟩ := call_dequeue r r1 hc
        subst hr1
        simp only [RunState.outstanding, List.length_append, List.length_singleton] at hP ⊢
        by_cases hmem : r.self.takeBuffer.2.2 ∈ r.held
        · simp only [if_pos hmem]
          push_cast
          omega
        · simp only [if_neg hmem, List.length_cons]
          push_cast
          omega
      | queueBuffer buffer res =>
        have hmem : buffer ∈ r.held := by simpa [heldOnly] using hok
        have hlt := filter_ne_length_lt r.held buffer hmem
        have hpos : 0 < r.outstanding := by omega
        refine ⟨countInv_call r _ r1 hc hcnt (fun _ => hpos), ?_⟩
        obtain ⟨-, hr1⟩ := call_queue r r1 buffer res hc
        subst hr1
        simp only [RunState.outstanding, List.length_append, List.length_singleton] at hP ⊢
        push_cast
        omega
    · exact ⟨countInv_start k hal mem h, by simp [RunState.outstanding, RunState.start]⟩
  obtain ⟨⟨hcount, hlo, hhi⟩, hheld⟩ := hboth
  refine ⟨by omega, hheld, by omega, by omega, by omega⟩

/-- C9, amended, on the sample run. -/
theorem C9_conservation_witness :
    RunState.exec heldOnly (RunState.start sampleWindow) sampleCalls = some sampleRun ∧
    sampleRun.self.mNumFreeBuffers + sampleRun.outstanding = 2 :=
  ⟨rfl, (C9_conservation androidCodes sampleHal rawStorage (by decide) sampleCalls sampleRun rfl).1⟩

/-! ## The order of the hand-outs -/

/-- C5 as stated fails: the first `dequeueBuffer` on the fresh window returns the
buffer of slot 1 (at 200), not the buffer of slot 0 (at 100). -/
theorem C5_counterexample :
    (RunState.exec anyCall (RunState.start sampleWindow) [Call.dequeueBuffer]).map
      (fun r => r.returned) = some [sampleWindow.buffers 1] ∧
    sampleWindow.buffers 1 = 200 ∧ sampleWindow.buffers 0 = 100 := by
  decide

/-- C5, amended: from the freshly constructed window, whatever `queueBuffer` calls
are made in between and with whatever buffers, the `i`-th completed `dequeueBuffer`
(`i = 0, 1, 2, ...`) returns the buffer of slot `(i + 1) mod 2`: the slots are
handed out in the order 1, 0, 1, 0, ... and the first call returns slot 1; the two
slots hold different buffers. -/
theorem C5_rotation (k : Codes) (hal : Hal) (mem : FramebufferNativeWindow)
    (h : hal.usable) (cs : List Call) (r : RunState)
    (hrun : RunState.exec anyCall
      (RunState.start (FramebufferNativeWindow.ctor k hal mem)) cs = some r) :
    (∀ i : Nat, i < r.returned.length →
      r.returned[i]? =
        some ((FramebufferNativeWindow.ctor k hal mem).buffers (((i + 1) % 2 : Nat) : Int))) ∧
    (FramebufferNativeWindow.ctor k hal mem).buffers 0 ≠
      (FramebufferNativeWindow.ctor k hal mem).buffers 1 := by
  obtain ⟨fb, hfb⟩ := Option.isSome_iff_exists.mp h.2.1
  obtain ⟨-, -, -, -, -, hb0, hb1, -⟩ := ctor_usable k hal mem fb h hfb
  obtain ⟨-, -, hret⟩ := ringInv_exec k hal mem h anyCall cs r hrun
  refine ⟨?_, by rw [hb0, hb1]; exact h.2.2.2.2.2⟩
  intro i hi
  rw [hret i hi]
  unfold rotation
  by_cases hpar : (i + 1) % 2 = 0
  · rw [if_pos hpar, hpar]
    exact congrArg some hb0.symm
  · have h1 : (i + 1) % 2 = 1 := by omega
    rw [if_neg hpar, h1]
    exact congrArg some hb1.symm

/-- C5, amended, on the sample run: the hand-outs are slot 1, then slot 0. -/
theorem C5_rotation_witness :
    RunState.exec anyCall (RunState.start sampleWindow) sampleCalls = some sampleRun ∧
    sampleRun.returned[1]? = some (sampleWindow.buffers (((1 + 1) % 2 : Nat) : Int)) :=
  ⟨rfl, (C5_rotation androidCodes sampleHal rawStorage (by decide) sampleCalls sampleRun rfl).1 1
    (by decide)⟩

/-! ## The front buffer and the hand-outs -/

/-- The buffers of the two slots of a ready window differ. -/
theorem ready_other (w : FramebufferNativeWindow) (b0 b1 : Ptr) (hr : Ready w b0 b1)
    (hh : w.mBufferHead = 0 ∨ w.mBufferHead = 1) :
    w.buffers (1 - w.mBufferHead) ≠ w.buffers w.mBufferHead ∧
    w.buffers (1 - (w.mBufferHead + 1) % 2) = w.buffers w.mBufferHead ∧
    w.buffers w.mBufferHead ≠ w.buffers ((w.mBufferHead + 1) % 2) ∧
    w.buffers w.mBufferHead ≠ NULL ∧
    (w.objects (w.buffers w.mBufferHead)).isSome = true := by
  obtain ⟨-, hb0, hb1, -, ho0, ho1, hn0, hn1, hne⟩ := hr
  have hne2 : b1 ≠ b0 := fun e => hne e.symm
  rcases hh with hh | hh <;> simp [hh, hb0, hb1, hne, hne2, hn0, hn1, ho0, ho1]

theorem oneInv_call (b0 b1 : Ptr) (r : RunState) (c : Call) (r1 : RunState)
    (hok : oneAtATime r c = true) (hc : r.call c = some r1)
    (hP : RingInv b0 b1 r ∧ CountInv r ∧ OneInv r) :
    RingInv b0 b1 r1 ∧ CountInv r1 ∧ OneInv r1 := by
  obtain ⟨hinv, hcnt, hone⟩ := hP
  refine ⟨ringInv_call b0 b1 r c r1 hc hinv, ?_⟩
  obtain ⟨hready, hhead, -⟩ := hinv
  have hh : r.self.mBufferHead = 0 ∨ r.self.mBufferHead = 1 := by omega
  obtain ⟨hoth, hback, -, -, -⟩ := ready_other r.self b0 b1 hready hh
  cases c with
  | dequeueBuffer =>
    refine ⟨countInv_call r _ r1 hc hcnt (fun hnd => absurd rfl hnd), ?_⟩
    obtain ⟨-, hr1⟩ := call_dequeue r r1 hc
    rw [takeBuffer_two r.self hready.1 (by omega) (by omega)] at hr1
    subst hr1
    have hheld : r.held = [] := by simpa [oneAtATime] using hok
    rcases hone with ⟨-, hout, -⟩ | ⟨hb, -⟩
    · right
      refine ⟨?_, ?_⟩
      · show (if r.self.buffers r.self.mBufferHead ∈ r.held then r.held
            else r.self.buffers r.self.mBufferHead :: r.held)
          = [r.self.buffers (1 - (r.self.mBufferHead + 1) % 2)]
        rw [hheld, hback]
        simp
      · simp only [RunState.outstanding, List.length_append, List.length_singleton] at hout ⊢
        push_cast
        omega
    · rw [hheld] at hb
      cases hb
  | queueBuffer buffer res =>
    have hmem : buffer ∈ r.held := by simpa [oneAtATime] using hok
    rcases hone with ⟨hheld, -, -⟩ | ⟨hb, hout⟩
    · rw [hheld] at hmem
      cases hmem
    · refine ⟨countInv_call r _ r1 hc hcnt (fun _ => by omega), ?_⟩
      obtain ⟨-, hr1⟩ := call_queue r r1 buffer res hc
      subst hr1
      rw [hb] at hmem
      have hbuf : buffer = r.self.buffers (1 - r.self.mBufferHead) := by simpa using hmem
      left
      refine ⟨?_, ?_, ?_⟩
      · show r.held.filter (fun b => b ≠ buffer) = []
        rw [hb, hbuf]
        simp
      · simp only [RunState.outstanding, List.length_append, List.length_singleton] at hout ⊢
        push_cast
        omega
      · show buffer ≠ r.self.buffers r.self.mBufferHead
        rw [hbuf]
        exact hoth

/-- C2 as stated fails: in the run `dequeueBuffer`, `dequeueBuffer`,
`queueBuffer(200)`, where the only `queueBuffer` is on a buffer returned before and
not queued since, the next `dequeueBuffer` completes and returns the buffer at 200,
which is `front`. -/
theorem C2_counterexample :
    (RunState.exec heldOnly (RunState.start sampleWindow)
      [Call.dequeueBuffer, Call.dequeueBuffer, Call.queueBuffer 200 0]).bind
      (fun r => (r.self.dequeueBuffer []).map (fun out => (out.2.2, r.self.front)))
      = some (200, 200) := by
  decide

/-- C2, amended: in every state reachable from the freshly constructed window by
`dequeueBuffer` and `queueBuffer` calls in which each `queueBuffer` is on a buffer
currently held and each `dequeueBuffer` is made while no buffer is held, a
`dequeueBuffer` made while no buffer is held completes and returns a buffer that is
not `front`. -/
theorem C2_front_not_returned (k : Codes) (hal : Hal) (mem : FramebufferNativeWindow)
    (h : hal.usable) (cs : List Call) (r : RunState)
    (hrun : RunState.exec oneAtATime
      (RunState.start (FramebufferNativeWindow.ctor k hal mem)) cs = some r)
    (hheld : r.held = []) :
    ∃ (w : FramebufferNativeWindow) (b : Ptr),
      r.self.dequeueBuffer [] = some (w, 0, b) ∧ b ≠ r.self.front := by
  have hstart : RingInv hal.new0.addr hal.new1.addr
      (RunState.start (FramebufferNativeWindow.ctor k hal mem)) ∧
      CountInv (RunState.start (FramebufferNativeWindow.ctor k hal mem)) ∧
      OneInv (RunState.start (FramebufferNativeWindow.ctor k hal mem)) := by
    have hinv := ringInv_start k hal mem h
    refine ⟨hinv, countInv_start k hal mem h,
      Or.inl ⟨rfl, by simp [RunState.outstanding, RunState.start], ?_⟩⟩
    obtain ⟨fb, hfb⟩ := Option.isSome_iff_exists.mp h.2.1
    obtain ⟨-, -, -, -, hhead, -, hb1, hfront, -⟩ := ctor_usable k hal mem fb h hfb
    show (FramebufferNativeWindow.ctor k hal mem).front ≠
      (FramebufferNativeWindow.ctor k hal mem).buffers
        (FramebufferNativeWindow.ctor k hal mem).mBufferHead
    rw [hfront, hhead, hb1]
    exact fun e => h.2.2.2.2.1 e.symm
  obtain ⟨hinv, hcnt, hone⟩ := exec_invariant oneAtATime
    (fun r => RingInv hal.new0.addr hal.new1.addr r ∧ CountInv r ∧ OneInv r)
    (fun r c r1 hok hc hP => oneInv_call _ _ r c r1 hok hc hP) cs _ r hrun hstart
  obtain ⟨hready, hhead, -⟩ := hinv
  obtain ⟨hcount, -, -⟩ := hcnt
  rcases hone with ⟨-, hout, hfront⟩ | ⟨hb, -⟩
  · refine ⟨{ r.self with
                mNumFreeBuffers := int32_dec r.self.mNumFreeBuffers
                mBufferHead := (r.self.mBufferHead + 1) % 2 },
      r.self.buffers r.self.mBufferHead, ?_, fun e => hfront e.symm⟩
    rw [dequeueBuffer_of_free r.self (by omega) [],
      takeBuffer_two r.self hready.1 (by omega) (by omega)]
  · rw [hheld] at hb
    cases hb

/-- C2, amended, after one full round on the sample window. -/
theorem C2_front_not_returned_witness :
    sampleHal.usable ∧
    RunState.exec oneAtATime (RunState.start sampleWindow) sampleRoundCalls
      = some sampleRound ∧
    sampleRound.held = [] ∧
    ∃ (w : FramebufferNativeWindow) (b : Ptr),
      sampleRound.self.dequeueBuffer [] = some (w, 0, b) ∧ b ≠ sampleRound.self.front :=
  ⟨by decide, rfl, rfl,
    C2_front_not_returned androidCodes sampleHal rawStorage (by decide) sampleRoundCalls
      sampleRound rfl rfl⟩

/-! ## The strictly alternating renderer -/

theorem swapInv_rounds (b0 b1 : Ptr) :
    ∀ (posts : List Int) (w : FramebufferNativeWindow), SwapInv b0 b1 w →
      ∃ w1, swapRounds w posts = some w1 ∧ SwapInv b0 b1 w1 := by
  intro posts
  induction posts with
  | nil =>
    intro w hw
    exact ⟨w, rfl, hw⟩
  | cons res rest ih =>
    intro w hw
    obtain ⟨hready, hfree, hh, hfront⟩ := hw
    obtain ⟨-, -, hne, hnull, hobj⟩ := ready_other w b0 b1 hready hh
    obtain ⟨nb, hnb⟩ := Option.isSome_iff_exists.mp hobj
    obtain ⟨fb, hfb⟩ := Option.isSome_iff_exists.mp hready.2.2.2.1
    have hdq : w.dequeueBuffer [] =
        some ({ w with mNumFreeBuffers := int32_dec w.mNumFreeBuffers
                       mBufferHead := (w.mBufferHead + 1) % 2 },
          0, w.buffers w.mBufferHead) :=
      (dequeueBuffer_of_free w (by omega) []).trans
        (congrArg some (takeBuffer_two w hready.1 (by omega) (by omega)))
    have hq := queueBuffer_live
      { w with mNumFreeBuffers := int32_dec w.mNumFreeBuffers
               mBufferHead := (w.mBufferHead + 1) % 2 }
      (w.buffers w.mBufferHead) (fun _ => res) fb nb hnull hfb hnb
    have hstep : swapRounds w (res :: rest) =
        swapRounds
          { w with mNumFreeBuffers := int32_inc (int32_dec w.mNumFreeBuffers)
                   mBufferHead := (w.mBufferHead + 1) % 2
                   front := w.buffers w.mBufferHead } rest := by
      simp only [swapRounds, hdq, hq]
    rw [hstep]
    refine ih _ ⟨hready, ?_, ?_, hne⟩
    · show int32_inc (int32_dec w.mNumFreeBuffers) = 2
      rw [hfree]
      decide
    · show (w.mBufferHead + 1) % 2 = 0 ∨ (w.mBufferHead + 1) % 2 = 1
      omega

/-- C10: from the freshly constructed window, after any number of rounds of
`dequeueBuffer` followed by `queueBuffer` of the buffer just returned (with any post
statuses), every round runs without waiting, and the next `dequeueBuffer` completes
without waiting and returns a buffer that is not `front`, so that a `lockBuffer` on
it right after completes without waiting. -/
theorem C10_alternating_renderer (k : Codes) (hal : Hal) (mem : FramebufferNativeWindow)
    (h : hal.usable) (posts : List Int) :
    ∃ (w w1 : FramebufferNativeWindow) (b : Ptr),
      swapRounds (FramebufferNativeWindow.ctor k hal mem) posts = some w ∧
      w.dequeueBuffer [] = some (w1, 0, b) ∧ b ≠ w.front ∧
      w1.lockBuffer k b [] = some (w1, k.NO_ERROR) := by
  obtain ⟨fb, hfb⟩ := Option.isSome_iff_exists.mp h.2.1
  obtain ⟨hdev, -, hn, hfree, hhead, hb0, hb1, hfront, ho0, ho1⟩ :=
    ctor_usable k hal mem fb h hfb
  have hstart : SwapInv hal.new0.addr hal.new1.addr (FramebufferNativeWindow.ctor k hal mem) := by
    refine ⟨⟨hn, hb0, hb1, by simp [hdev], by simp [ho0], by simp [ho1], h.2.2.2.1,
      h.2.2.2.2.1, h.2.2.2.2.2⟩, hfree, Or.inr hhead, ?_⟩
    rw [hfront, hhead, hb1]
    exact fun e => h.2.2.2.2.1 e.symm
  obtain ⟨w, hrounds, hready, hfree2, hh, hfront2⟩ :=
    swapInv_rounds hal.new0.addr hal.new1.addr posts _ hstart
  refine ⟨w, { w with mNumFreeBuffers := int32_dec w.mNumFreeBuffers
                      mBufferHead := (w.mBufferHead + 1) % 2 },
    w.buffers w.mBufferHead, hrounds, ?_, fun e => hfront2 e.symm, ?_⟩
  · rw [dequeueBuffer_of_free w (by omega) [],
      takeBuffer_two w hready.1 (by omega) (by omega)]
  · exact lockBuffer_of_ne k
      { w with mNumFreeBuffers := int32_dec w.mNumFreeBuffers
               mBufferHead := (w.mBufferHead + 1) % 2 }
      (w.buffers w.mBufferHead) hfront2 []

/-- C10 on the sample hardware layer, after three rounds whose second post fails. -/
theorem C10_alternating_renderer_witness :
    sampleHal.usable ∧
    ∃ (w w1 : FramebufferNativeWindow) (b : Ptr),
      swapRounds sampleWindow [0, -5, 0] = some w ∧
      w.dequeueBuffer [] = some (w1, 0, b) ∧ b ≠ w.front ∧
      w1.lockBuffer androidCodes b [] = some (w1, 0) :=
  ⟨by decide, C10_alternating_renderer androidCodes sampleHal rawStorage (by decide) [0, -5, 0]⟩

end android
